import Mathlib

/-!
Shallow embedding of the LunchCrunch food-ordering application
(`order.py`, `order_mailer.py`, `order_manager.py`) together with proofs
about its specification claims.

Python strings are modelled as Lean `String` / `List Char`, Python `int` as
`Int`, Python dicts as insertion-ordered association lists, the filesystem
as explicit values threaded through the functions (a file is a list of
lines), and fallible operations as `Option` / `Except` together with
explicit success oracles for the mail transport and file I/O.
-/

namespace LunchCrunch

/-! ### Characters and digit strings -/

def squote : Char := Char.ofNat 39

def dquote : Char := Char.ofNat 34

def lbrace : Char := Char.ofNat 123

def rbrace : Char := Char.ofNat 125

def isDigitCh (c : Char) : Bool := 48 ≤ c.toNat && c.toNat ≤ 57

def digitCh (n : Nat) : Char := Char.ofNat (48 + n)

/-- Fuel-driven digit expansion; the fuel only forces structural
recursion and is irrelevant whenever it exceeds the number. -/
def natToDigitsAux : Nat → Nat → List Char
  | 0, _ => []
  | fuel + 1, n =>
    if n < 10 then [digitCh n]
    else natToDigitsAux fuel (n / 10) ++ [digitCh (n % 10)]

/-- Decimal digits of `n`, most significant first (Python formatting of a
non-negative integer). -/
def natToDigits (n : Nat) : List Char := natToDigitsAux (n + 1) n

/-- Python formatting of an `int` (`f-string` / `repr`). -/
def intRepr (v : Int) : List Char :=
  if v < 0 then '-' :: natToDigits v.natAbs else natToDigits v.toNat

/-- Numeric value of a digit string, most significant first. -/
def digitsVal (cs : List Char) : Nat :=
  cs.foldl (fun a c => a * 10 + (c.toNat - 48)) 0

def padZero (w : Nat) (ds : List Char) : List Char :=
  List.replicate (w - ds.length) '0' ++ ds

def pad2 (n : Nat) : List Char := padZero 2 (natToDigits n)

def pad4 (n : Nat) : List Char := padZero 4 (natToDigits n)

/-! ### Date and time -/

/-- Wall-clock timestamp, the part of a Python `datetime` the application
uses (`strftime`, `.year`, `.month`). -/
structure DateTime where
  year : Nat
  month : Nat
  day : Nat
  hour : Nat
  minute : Nat
deriving DecidableEq, Repr

/-- Rendering of `DATE_FORMAT = '%d.%m.%Y %H:%M'` from `order.py` by
`strftime`. -/
def formatDateTime (dt : DateTime) : List Char :=
  pad2 dt.day ++ '.' :: pad2 dt.month ++ '.' :: pad4 dt.year
    ++ ' ' :: pad2 dt.hour ++ ':' :: pad2 dt.minute

/-- Rendering of `strftime('%d.%m.%Y')` used by the Datum placeholder
closure in `order_mailer.py`. -/
def formatDate (dt : DateTime) : List Char :=
  pad2 dt.day ++ '.' :: pad2 dt.month ++ '.' :: pad4 dt.year

/-! ### Order (`order.py`) -/

/-- Python class `Order`: per-group counts (a dict, modelled as an
insertion-ordered association list) and a timestamp. -/
structure Order where
  counts : List (String × Int)
  datetime : DateTime
deriving DecidableEq, Repr

/-- Property `Order.total_count`: `sum(self.counts.values())`. -/
def Order.total_count (o : Order) : Int := (o.counts.map Prod.snd).sum

/-- Method `Order.now`: update the timestamp to the current date and time;
the embedding passes the current time explicitly. -/
def Order.now (o : Order) (t : DateTime) : Order := { o with datetime := t }

/-- Python `repr` of a `str` key containing no quote or escape characters
(the only shape the application writes). -/
def keyRepr (k : String) : List Char := squote :: k.data ++ [squote]

def entryRepr (p : String × Int) : List Char :=
  keyRepr p.1 ++ ':' :: ' ' :: intRepr p.2

def dictReprBody : List (String × Int) → List Char
  | [] => []
  | [p] => entryRepr p
  | p :: q :: ps => entryRepr p ++ ',' :: ' ' :: dictReprBody (q :: ps)

/-- Python `repr` of the counts dict: entries joined by a comma and a
space, wrapped in braces. -/
def dictRepr (cs : List (String × Int)) : List Char :=
  lbrace :: dictReprBody cs ++ [rbrace]

/-- Method `Order.__str__`: the line stored in the history file,
`'DD.MM.YYYY HH:MM;<counts dict>;<total>'`. -/
def orderLine (o : Order) : String :=
  String.mk (formatDateTime o.datetime ++ ';' :: dictRepr o.counts
    ++ ';' :: intRepr o.total_count)

/-! ### Literal text replacement (Python `str.replace`) -/

def isPre : List Char → List Char → Bool
  | [], _ => true
  | _ :: _, [] => false
  | a :: as, b :: bs => a == b && isPre as bs

/-- Fuel-driven replacement scan; the fuel only forces structural
recursion and is irrelevant whenever it exceeds the text length. -/
def replaceCoreAux (pat rep : List Char) : Nat → List Char → List Char
  | 0, s => s
  | fuel + 1, s =>
    match s with
    | [] => []
    | c :: cs =>
      if isPre pat (c :: cs) = true ∧ pat ≠ [] then
        rep ++ replaceCoreAux pat rep fuel (List.drop pat.length (c :: cs))
      else
        c :: replaceCoreAux pat rep fuel cs

/-- Python `str.replace` with a non-empty pattern: scan left to right,
replace each occurrence, resume after the inserted replacement
(occurrences never overlap). -/
def replaceCore (pat rep s : List Char) : List Char :=
  replaceCoreAux pat rep s.length s

/-- Python `str.replace`: an empty pattern inserts the replacement at
every position; otherwise `replaceCore`. -/
def pyReplace (s pat rep : List Char) : List Char :=
  if pat = [] then rep ++ s.flatMap (fun c => c :: rep)
  else replaceCore pat rep s

/-- Whether `pat` occurs as a contiguous substring of `s` (Python
`pat in s`). -/
def hasSub : List Char → List Char → Bool
  | [], pat => pat.isEmpty
  | c :: cs, pat => isPre pat (c :: cs) || hasSub cs pat

/-! ### Placeholder engine (`order_mailer.py`) -/

/-- Python dataclass `Placeholder`: token, replacement and description.
The replacement is evaluated at substitution time; the embedding stores
the value computed for the current pass. -/
structure Placeholder where
  token : String
  replacement : String
  description : String
deriving DecidableEq, Repr

/-- Method `Placeholder.fill`: `text.replace(self.token, value)`. -/
def Placeholder.fill (p : Placeholder) (text : String) : String :=
  String.mk (pyReplace text.data p.token.data p.replacement.data)

/-- Method `PlaceholderList.fill_all`: apply each placeholder in
declaration order. -/
def fill_all (ps : List Placeholder) (text : String) : String :=
  match ps with
  | [] => text
  | p :: rest => fill_all rest (p.fill text)

/-- The placeholder list built in `OrderMailer.__init__`: the Anzahl token
produces the current order total, the Datum token the order date as
`TT.MM.JJJJ`. Both closures read the current order at substitution time,
so the embedding takes the order as an argument. -/
def mailerPlaceholders (order : Order) : List Placeholder :=
  [ { token := "\x7bAnzahl\x7d",
      replacement := String.mk (intRepr order.total_count),
      description := "Gesamtanzahl der bestellten Essen" },
    { token := "\x7bDatum\x7d",
      replacement := String.mk (formatDate order.datetime),
      description := "Datum der Bestellung im Format TT.MM.JJJJ" } ]

/-! ### Parsing helpers for `OrderManager.load_orders` -/

def isWsCh (c : Char) : Bool :=
  c == ' ' || c == '\t' || c == '\n' || c == '\r' || c.toNat == 11 || c.toNat == 12

def dropWs : List Char → List Char
  | [] => []
  | c :: cs => if isWsCh c then dropWs cs else c :: cs

/-- Python `str.strip`: remove leading and trailing whitespace. -/
def stripWs (cs : List Char) : List Char :=
  ((dropWs ((dropWs cs).reverse)).reverse)

/-- Up to `b` leading decimal digits and the rest (the bounded digit
groups of the `strptime` format regex). -/
def takeDigitsB : Nat → List Char → List Char × List Char
  | 0, cs => ([], cs)
  | _ + 1, [] => ([], [])
  | b + 1, c :: cs =>
    if isDigitCh c then
      let (ds, r) := takeDigitsB b cs
      (c :: ds, r)
    else ([], c :: cs)

def takeDigitsAll : List Char → List Char × List Char
  | [] => ([], [])
  | c :: cs =>
    if isDigitCh c then
      let (ds, r) := takeDigitsAll cs
      (c :: ds, r)
    else ([], c :: cs)

def expectCh (x : Char) : List Char → Option (List Char)
  | c :: cs => if c == x then some cs else none
  | [] => none

/-- A literal blank in a `strptime` format matches one or more whitespace
characters. -/
def ws1 : List Char → Option (List Char)
  | c :: cs => if isWsCh c then some (dropWs cs) else none
  | [] => none

/-- A one-or-two digit numeric field of `strptime` (`%d`, `%m`, `%H`, `%M`). -/
def parseNum2 (cs : List Char) : Option (Nat × List Char) :=
  match takeDigitsB 2 cs with
  | ([], _) => none
  | (ds, r) => some (digitsVal ds, r)

/-- The exactly-four-digit `%Y` field of `strptime`. -/
def parseNum4 (cs : List Char) : Option (Nat × List Char) :=
  match takeDigitsB 4 cs with
  | (ds, r) => if ds.length = 4 then some (digitsVal ds, r) else none

def isLeap (y : Nat) : Bool :=
  y % 4 == 0 && (y % 100 != 0 || y % 400 == 0)

def daysInMonth (y m : Nat) : Nat :=
  if m == 2 then (if isLeap y then 29 else 28)
  else if m == 4 || m == 6 || m == 9 || m == 11 then 30
  else 31

/-- Embeds `datetime.strptime(date_str, DATE_FORMAT)` with
`DATE_FORMAT = '%d.%m.%Y %H:%M'`: bounded digit fields separated by the
literal characters of the format, no unconverted trailing data, and the
range checks `strptime` and the `datetime` constructor perform. -/
def parseDateTime (cs : List Char) : Option DateTime := do
  let (d, r1) ← parseNum2 cs
  let r2 ← expectCh '.' r1
  let (m, r3) ← parseNum2 r2
  let r4 ← expectCh '.' r3
  let (y, r5) ← parseNum4 r4
  let r6 ← ws1 r5
  let (hh, r7) ← parseNum2 r6
  let r8 ← expectCh ':' r7
  let (mi, r9) ← parseNum2 r8
  if r9 = [] ∧ 1 ≤ d ∧ 1 ≤ m ∧ m ≤ 12 ∧ d ≤ daysInMonth y m ∧ hh ≤ 23 ∧ mi ≤ 59 then
    some ⟨y, m, d, hh, mi⟩
  else none

def takeUntilCh (q : Char) : List Char → Option (List Char × List Char)
  | [] => none
  | c :: cs =>
    if c == q then some ([], cs)
    else (takeUntilCh q cs).map (fun p => (c :: p.1, p.2))

/-- A Python string literal with no escape sequences (the only shape the
application writes for group keys). -/
def parseStrLit (cs : List Char) : Option (String × List Char) :=
  match cs with
  | c :: rest =>
    if c == squote || c == dquote then
      (takeUntilCh c rest).map (fun p => (String.mk p.1, p.2))
    else none
  | [] => none

def parseIntLit (cs : List Char) : Option (Int × List Char) :=
  match cs with
  | '-' :: rest =>
    match takeDigitsAll rest with
    | ([], _) => none
    | (ds, r) => some (-(digitsVal ds : Int), r)
  | _ =>
    match takeDigitsAll cs with
    | ([], _) => none
    | (ds, r) => some ((digitsVal ds : Int), r)

/-- Insertion into a Python dict under construction: a repeated key keeps
its first position but takes the last value. -/
def insertKV (m : List (String × Int)) (k : String) (v : Int) :
    List (String × Int) :=
  match m with
  | [] => [(k, v)]
  | (k0, v0) :: rest =>
    if k0 = k then (k0, v) :: rest else (k0, v0) :: insertKV rest k v

def parseEntries (fuel : Nat) (acc : List (String × Int)) (cs : List Char) :
    Option (List (String × Int) × List Char) :=
  match fuel with
  | 0 => none
  | fuel + 1 => do
    let (k, r1) ← parseStrLit (dropWs cs)
    let r2 ← expectCh ':' (dropWs r1)
    let (v, r3) ← parseIntLit (dropWs r2)
    let acc2 := insertKV acc k v
    match dropWs r3 with
    | c :: rest =>
      if c == ',' then parseEntries fuel acc2 rest
      else if c == rbrace then some (acc2, rest)
      else none
    | [] => none

/-- Embeds `ast.literal_eval(counts_str)` restricted to the literal shape
the application itself writes: a dict of plain (quote-free) string keys
mapped to integer literals. Any other literal is treated as unparseable. -/
def parsePyDict (s : List Char) : Option (List (String × Int)) :=
  match dropWs s with
  | c :: rest =>
    if c == lbrace then
      match dropWs rest with
      | d :: rest2 =>
        if d == rbrace then
          if dropWs rest2 = [] then some [] else none
        else do
          let (m, r) ← parseEntries (rest.length + 1) [] rest
          if dropWs r = [] then some m else none
      | [] => none
    else none
  | [] => none

/-- Python `str.split(sep)` for a one-character separator: no merging of
adjacent separators, empty fragments kept. -/
def splitOnCh (sep : Char) : List Char → List (List Char)
  | [] => [[]]
  | c :: cs =>
    if c == sep then [] :: splitOnCh sep cs
    else
      match splitOnCh sep cs with
      | g :: gs => (c :: g) :: gs
      | [] => [[c]]

/-- The per-line parsing step of `OrderManager.load_orders`: split the
stripped line on `';'` into exactly three fields (the unpacking
`date_str, counts_str, _ = line.split(';')`), `strptime` the first,
`literal_eval` the second (the third is ignored). -/
def parseOrderLine (cs : List Char) : Option Order :=
  match splitOnCh ';' cs with
  | [dateCs, countsCs, _] => do
    let dt ← parseDateTime dateCs
    let counts ← parsePyDict countsCs
    some { counts := counts, datetime := dt }
  | _ => none

/-! ### Order history store (`order_manager.py`) -/

/-- State of an `OrderManager` together with its data file: the file is
its list of lines (`none` when the file does not exist), `orders` the
in-memory list. -/
structure ManagerState where
  file : List String
  orders : List Order
deriving DecidableEq, Repr

/-- The header written when the data file does not exist yet. -/
def headerLine : String := "datetime,counts,total_count"

/-- The per-line loop of `OrderManager.load_orders`: strip each line, skip
empty lines, parse, collect parsed orders in order, and count the
warnings logged for unparseable lines. -/
def loadLoop : List String → List Order × Nat
  | [] => ([], 0)
  | l :: ls =>
    let s := stripWs l.data
    if s = [] then loadLoop ls
    else
      match parseOrderLine s with
      | some o =>
        let (os, w) := loadLoop ls
        (o :: os, w)
      | none =>
        let (os, w) := loadLoop ls
        (os, w + 1)

/-- Method `OrderManager.load_orders` acting on the data file contents: a
missing file (`none`) is created containing only the header line and an
empty order list is returned (no warnings); otherwise the per-line loop
runs and the file is left exactly as it was. Returns
`((orders, warnings), file after the call)`. -/
def load_orders : Option (List String) → (List Order × Nat) × Option (List String)
  | none => (([], 0), some [headerLine])
  | some lines => (loadLoop lines, some lines)

/-- Method `OrderManager.add_order`: append the serialized order as one
line to the data file, then append the order to the in-memory list; an
I/O failure (oracle `writeOk = false`) is logged and re-raised, leaving
the state as it was. -/
def add_order (writeOk : Bool) (st : ManagerState) (o : Order) :
    Except String Unit × ManagerState :=
  if writeOk then
    (Except.ok (),
      { file := st.file ++ [orderLine o], orders := st.orders ++ [o] })
  else
    (Except.error "Could not add order to data file", st)

/-! ### Month options and filtering (`order_manager.py`) -/

def monthPair (o : Order) : Nat × Nat := (o.datetime.year, o.datetime.month)

/-- Membership-based duplicate removal: embeds the set comprehension
`\x7b(o.datetime.year, o.datetime.month) for o in self.orders\x7d` (which
duplicate survives is irrelevant, the result is sorted afterwards). -/
def dedupPairs : List (Nat × Nat) → List (Nat × Nat)
  | [] => []
  | p :: ps => if p ∈ ps then dedupPairs ps else p :: dedupPairs ps

/-- Python tuple comparison on `(year, month)`: lexicographic. -/
def pairLe (a b : Nat × Nat) : Prop :=
  a.1 < b.1 ∨ (a.1 = b.1 ∧ a.2 ≤ b.2)

instance pairLe.dec (a b : Nat × Nat) : Decidable (pairLe a b) := by
  unfold pairLe
  exact inferInstance

/-- Insertion into a descending list. -/
def insertDesc (p : Nat × Nat) : List (Nat × Nat) → List (Nat × Nat)
  | [] => [p]
  | q :: qs => if pairLe q p then p :: q :: qs else q :: insertDesc p qs

/-- Embeds `sorted(month_set, reverse=True)`: on a duplicate-free list the
descending insertion sort produces the same strictly descending list. -/
def sortDesc (l : List (Nat × Nat)) : List (Nat × Nat) :=
  l.foldr insertDesc []

/-- The distinct `(year, month)` pairs of the orders, sorted descending —
the list behind `OrderManager.month_options`. -/
def monthsDesc (orders : List Order) : List (Nat × Nat) :=
  sortDesc (dedupPairs (orders.map monthPair))

/-- The month-over-year formatting of one `(year, month)` pair used by
`month_options`. -/
def monthFmt (p : Nat × Nat) : String :=
  String.mk (natToDigits p.2 ++ '/' :: natToDigits p.1)

/-- Property `OrderManager.month_options`. -/
def month_options (orders : List Order) : List String :=
  "Alle Monate" :: (monthsDesc orders).map monthFmt

/-- Python `int(...)` on a selector fragment, restricted to plain digit
strings (the shape `month_options` produces). -/
def parseNatStr (cs : List Char) : Option Nat :=
  if cs ≠ [] ∧ cs.all isDigitCh then some (digitsVal cs) else none

/-- Property `OrderManager.filtered_orders`: all orders for the sentinel
selection; otherwise `month, year = map(int, selection.split('/'))` and
only the orders of that month, in their original relative order. An
unparseable selection raises (`none`). -/
def filtered_orders (orders : List Order) (sel : String) : Option (List Order) :=
  if sel ≠ "Alle Monate" then
    match splitOnCh '/' sel.data with
    | [ms, ys] => do
      let m ← parseNatStr ms
      let y ← parseNatStr ys
      some (orders.filter fun o =>
        decide (o.datetime.year = y) && decide (o.datetime.month = m))
    | _ => none
  else some orders

/-- Property `OrderManager.total_count`: the sum of `total_count` over
`filtered_orders`. -/
def manager_total_count (orders : List Order) (sel : String) : Option Int :=
  (filtered_orders orders sel).map fun l => (l.map Order.total_count).sum

/-! ### Order mailer (`order_mailer.py`) -/

/-- Send-relevant state of `OrderMailer`. -/
structure MailerState where
  smtp_server : String
  smtp_port : Nat
  username : String
  password : String
  use_tls : Bool
  to_addr : List String
  subject_template : String
  template : String
  order : Order
deriving DecidableEq, Repr

/-- Errors surfaced by placing an order: `OrderMailerConfigError` carrying
the missing field, a transport failure, or a history append failure. -/
inductive PlaceError where
  | config (field : String)
  | send
  | persist
deriving DecidableEq, Repr

/-- Property `OrderMailer.subject`: the subject template with all
placeholders filled from the current order. -/
def mailerSubject (m : MailerState) : String :=
  fill_all (mailerPlaceholders m.order) m.subject_template

/-- Property `OrderMailer.body`: the body template with all placeholders
filled from the current order. -/
def mailerBody (m : MailerState) : String :=
  fill_all (mailerPlaceholders m.order) m.template

/-- The required-field guards opening `OrderMailer.place_order`: each
missing field raises `OrderMailerConfigError` naming it, in this order. -/
def configCheck (m : MailerState) : Option PlaceError :=
  if m.smtp_server = "" then some (PlaceError.config "SMTP Server")
  else if m.smtp_port = 0 then some (PlaceError.config "SMTP Port")
  else if m.username = "" then some (PlaceError.config "Absenderadresse")
  else if m.password = "" then some (PlaceError.config "Passwort")
  else if m.to_addr = [] then some (PlaceError.config "Empfängeradresse")
  else none

/-- Method `OrderMailer.place_order` as committed in `src/order_mailer.py`:
guard the configuration, render subject and body, attempt the SMTP send
(oracle `sendOk`), and on success append `str(self.order)` as one line to
the data file. This variant neither touches the order timestamp nor any
in-memory order list. Returns the outcome, the rendered
`(subject, body)` when the guards passed, and the resulting data file. -/
def place_order_v1 (sendOk : Bool) (m : MailerState) (file : List String) :
    Except PlaceError Unit × Option (String × String) × List String :=
  match configCheck m with
  | some e => (Except.error e, none, file)
  | none =>
    let rendered := (mailerSubject m, mailerBody m)
    if sendOk then (Except.ok (), some rendered, file ++ [orderLine m.order])
    else (Except.error PlaceError.send, some rendered, file)

/-- Modelled from the spec: the `OrderMailer` variant imported by
`main.py` — it references `DuplicateOrderError` and `mailer.new_order`
and is constructed with the `OrderManager` as collaborator — is not under
`src/`; only its caller `main.py` is. Following section 4.4 of the spec,
placing an order (1) marks the in-progress Order's timestamp as now,
(2) renders subject and body through the placeholder engine from this
Order's counts, (3) attempts the transport send (oracle `sendOk`),
propagating a Send error and leaving the history store untouched on
failure, and (4) on transport success appends the Order to the history
store via `OrderManager.add_order` (embedded above from
`src/order_manager.py`), surfacing an append failure as a distinct
persistence error. -/
def place_order (now : DateTime) (sendOk writeOk : Bool)
    (m : MailerState) (mgr : ManagerState) :
    Except PlaceError Unit × Option (String × String) × MailerState × ManagerState :=
  match configCheck m with
  | some e => (Except.error e, none, m, mgr)
  | none =>
    let m' := { m with order := m.order.now now }
    let rendered := (mailerSubject m', mailerBody m')
    if sendOk then
      match add_order writeOk mgr m'.order with
      | (Except.ok _, mgr') => (Except.ok (), some rendered, m', mgr')
      | (Except.error _, mgr') =>
        (Except.error PlaceError.persist, some rendered, m', mgr')
    else (Except.error PlaceError.send, some rendered, m', mgr)

/-- Embeds the Python evaluation rule for the dataclass field default in
`order.py`: the default `datetime: datetime = datetime.now()` is evaluated
once, when the class definition is executed at import time, and that
single value is shared by every construction that omits the timestamp.
`classDefTime` is this frozen value; `constructionTime` is the wall clock
at the moment `Order(counts)` is called, which the committed default
never consults. -/
def orderDefault (classDefTime : DateTime) (constructionTime : DateTime)
    (counts : List (String × Int)) : Order :=
  { counts := counts, datetime := classDefTime }

/-! ### Lemmas about literal replacement -/

theorem hasSub_nil_pat (s : List Char) : hasSub s [] = true := by
  cases s <;> simp [hasSub, isPre]

theorem replaceCoreAux_irrel (pat rep : List Char) :
    ∀ (f f' : Nat) (s : List Char), s.length ≤ f → s.length ≤ f' →
      replaceCoreAux pat rep f s = replaceCoreAux pat rep f' s := by
  intro f
  induction f with
  | zero =>
    intro f' s hf _
    have : s = [] := List.eq_nil_of_length_eq_zero (by omega)
    subst this
    cases f' <;> rfl
  | succ f ih =>
    intro f' s hf hf'
    cases s with
    | nil => cases f' <;> rfl
    | cons c cs =>
      cases f' with
      | zero => simp at hf'
      | succ f' =>
        rw [replaceCoreAux, replaceCoreAux]
        simp only [List.length_cons] at hf hf'
        split
        · next h =>
          have hp : 0 < pat.length := List.length_pos.mpr h.2
          have hl : (List.drop pat.length (c :: cs)).length = cs.length + 1 - pat.length := by
            rw [List.length_drop, List.length_cons]
          congr 1
          exact ih f' _ (by omega) (by omega)
        · rw [ih f' cs (by omega) (by omega)]

theorem replaceCore_cons (pat rep : List Char) (c : Char) (cs : List Char) :
    replaceCore pat rep (c :: cs) =
      if isPre pat (c :: cs) = true ∧ pat ≠ [] then
        rep ++ replaceCore pat rep (List.drop pat.length (c :: cs))
      else c :: replaceCore pat rep cs := by
  show replaceCoreAux pat rep (cs.length + 1) (c :: cs) = _
  rw [replaceCoreAux]
  split
  · next h =>
    have hp : 0 < pat.length := List.length_pos.mpr h.2
    have hl : (List.drop pat.length (c :: cs)).length = cs.length + 1 - pat.length := by
      rw [List.length_drop, List.length_cons]
    congr 1
    exact replaceCoreAux_irrel pat rep cs.length _ _ (by omega) (by omega)
  · rfl

theorem replaceCore_of_not_hasSub (pat rep : List Char) :
    ∀ s : List Char, hasSub s pat = false → replaceCore pat rep s = s := by
  intro s
  induction s with
  | nil => intro _; rfl
  | cons c cs ih =>
    intro h
    simp only [hasSub, Bool.or_eq_false_iff] at h
    rw [replaceCore_cons, if_neg (by simp [h.1]), ih h.2]

theorem pyReplace_of_not_hasSub (s pat rep : List Char)
    (h : hasSub s pat = false) : pyReplace s pat rep = s := by
  have hpat : pat ≠ [] := by
    intro he
    rw [he, hasSub_nil_pat] at h
    simp at h
  rw [pyReplace, if_neg hpat]
  exact replaceCore_of_not_hasSub pat rep s h

theorem mkData_eq (s : String) : String.mk s.data = s := rfl

theorem fill_of_not_hasSub (p : Placeholder) (t : String)
    (h : hasSub t.data p.token.data = false) : p.fill t = t := by
  rw [Placeholder.fill, pyReplace_of_not_hasSub _ _ _ h, mkData_eq]

theorem fill_all_eq_foldl (ps : List Placeholder) (t : String) :
    fill_all ps t = ps.foldl (fun s p => p.fill s) t := by
  induction ps generalizing t with
  | nil => rfl
  | cons p rest ih => simp [fill_all, ih]

theorem fill_all_of_no_tokens (ps : List Placeholder) (t : String)
    (h : ∀ p ∈ ps, hasSub t.data p.token.data = false) : fill_all ps t = t := by
  induction ps with
  | nil => rfl
  | cons p rest ih =>
    rw [fill_all, fill_of_not_hasSub p t (h p (by simp))]
    exact ih fun q hq => h q (by simp [hq])

/-! ### Lemmas about decimal digit strings -/

theorem digitCh_toNat (k : Nat) (h : k < 10) : (digitCh k).toNat = 48 + k := by
  interval_cases k <;> decide

theorem isDigitCh_digitCh (k : Nat) (h : k < 10) : isDigitCh (digitCh k) = true := by
  interval_cases k <;> decide

theorem natToDigitsAux_irrel :
    ∀ (f f' n : Nat), n < f → n < f' →
      natToDigitsAux f n = natToDigitsAux f' n := by
  intro f
  induction f with
  | zero => intro f' n hf; omega
  | succ f ih =>
    intro f' n hf hf'
    cases f' with
    | zero => omega
    | succ f' =>
      rw [natToDigitsAux, natToDigitsAux]
      split
      · rfl
      · next h =>
        have hd : n / 10 < n := Nat.div_lt_self (by omega) (by omega)
        rw [ih f' (n / 10) (by omega) (by omega)]

theorem natToDigits_eq (n : Nat) :
    natToDigits n =
      if n < 10 then [digitCh n]
      else natToDigits (n / 10) ++ [digitCh (n % 10)] := by
  show natToDigitsAux (n + 1) n = _
  rw [natToDigitsAux]
  split
  · rfl
  · next h =>
    have hd : n / 10 < n := Nat.div_lt_self (by omega) (by omega)
    rw [natToDigitsAux_irrel n (n / 10 + 1) (n / 10) (by omega) (by omega)]
    rfl

theorem natToDigits_ne_nil (n : Nat) : natToDigits n ≠ [] := by
  rw [natToDigits_eq]
  split <;> simp

theorem natToDigits_all_digits (n : Nat) :
    ∀ c ∈ natToDigits n, isDigitCh c = true := by
  induction n using Nat.strong_induction_on with
  | _ n ih =>
    rw [natToDigits_eq]
    split
    · next h =>
      intro c hc
      simp only [List.mem_singleton] at hc
      exact hc ▸ isDigitCh_digitCh n h
    · next h =>
      intro c hc
      simp only [List.mem_append, List.mem_singleton] at hc
      rcases hc with hc | hc
      · exact ih (n / 10) (Nat.div_lt_self (by omega) (by omega)) c hc
      · exact hc ▸ isDigitCh_digitCh (n % 10) (Nat.mod_lt n (by omega))

theorem digitsVal_append_digit (ds : List Char) (c : Char) :
    digitsVal (ds ++ [c]) = digitsVal ds * 10 + (c.toNat - 48) := by
  simp [digitsVal, List.foldl_append]

theorem digitsVal_natToDigits (n : Nat) : digitsVal (natToDigits n) = n := by
  induction n using Nat.strong_induction_on with
  | _ n ih =>
    rw [natToDigits_eq]
    split
    · next h =>
      simp [digitsVal, digitCh_toNat n h]
    · next h =>
      rw [digitsVal_append_digit,
        ih (n / 10) (Nat.div_lt_self (by omega) (by omega)),
        digitCh_toNat (n % 10) (Nat.mod_lt n (by omega))]
      omega

theorem parseNatStr_natToDigits (n : Nat) :
    parseNatStr (natToDigits n) = some n := by
  rw [parseNatStr, if_pos, digitsVal_natToDigits]
  exact ⟨natToDigits_ne_nil n, List.all_eq_true.mpr (natToDigits_all_digits n)⟩

/-! ### Lemmas about splitting -/

theorem splitOnCh_no_sep (sep : Char) (cs : List Char)
    (h : ∀ c ∈ cs, c ≠ sep) : splitOnCh sep cs = [cs] := by
  induction cs with
  | nil => rfl
  | cons c cs ih =>
    rw [splitOnCh, if_neg (by simp [h c (by simp)]),
      ih fun x hx => h x (by simp [hx])]

theorem splitOnCh_append_sep (sep : Char) (a b : List Char)
    (h : ∀ c ∈ a, c ≠ sep) :
    splitOnCh sep (a ++ sep :: b) = a :: splitOnCh sep b := by
  induction a with
  | nil => simp [splitOnCh]
  | cons c a ih =>
    rw [List.cons_append, splitOnCh, if_neg (by simp [h c (by simp)]),
      ih fun x hx => h x (by simp [hx])]

theorem digit_ne_slash (c : Char) (h : isDigitCh c = true) : c ≠ '/' := by
  intro he
  rw [he] at h
  simp [isDigitCh] at h

theorem monthFmt_split (p : Nat × Nat) :
    splitOnCh '/' (monthFmt p).data = [natToDigits p.2, natToDigits p.1] := by
  show splitOnCh '/' (natToDigits p.2 ++ '/' :: natToDigits p.1) = _
  rw [splitOnCh_append_sep '/' _ _
      (fun c hc => digit_ne_slash c (natToDigits_all_digits p.2 c hc)),
    splitOnCh_no_sep '/' _
      (fun c hc => digit_ne_slash c (natToDigits_all_digits p.1 c hc))]

theorem monthFmt_ne_sentinel (p : Nat × Nat) : monthFmt p ≠ "Alle Monate" := by
  intro he
  have hd : (monthFmt p).data = "Alle Monate".data := congrArg String.data he
  rcases hn : natToDigits p.2 with _ | ⟨c, cs⟩
  · exact natToDigits_ne_nil p.2 hn
  · have hc : isDigitCh c = true := natToDigits_all_digits p.2 c (by rw [hn]; simp)
    have : (monthFmt p).data = c :: (cs ++ '/' :: natToDigits p.1) := by
      show natToDigits p.2 ++ '/' :: natToDigits p.1 = _
      rw [hn]; rfl
    rw [this] at hd
    have : c = 'A' := List.head_eq_of_cons_eq hd
    rw [this] at hc
    simp [isDigitCh] at hc

/-! ### Lemmas about the month pair sort -/

theorem pairLe_total (a b : Nat × Nat) : pairLe a b ∨ pairLe b a := by
  rcases a with ⟨a1, a2⟩
  rcases b with ⟨b1, b2⟩
  simp [pairLe]
  omega

theorem pairLe_trans (a b c : Nat × Nat)
    (h1 : pairLe a b) (h2 : pairLe b c) : pairLe a c := by
  rcases a with ⟨a1, a2⟩
  rcases b with ⟨b1, b2⟩
  rcases c with ⟨c1, c2⟩
  simp [pairLe] at h1 h2 ⊢
  omega

theorem insertDesc_perm (p : Nat × Nat) (l : List (Nat × Nat)) :
    List.Perm (insertDesc p l) (p :: l) := by
  induction l with
  | nil => rfl
  | cons q qs ih =>
    rw [insertDesc]
    split
    · rfl
    · exact (ih.cons q).trans (List.Perm.swap p q qs)

theorem sortDesc_perm (l : List (Nat × Nat)) : List.Perm (sortDesc l) l := by
  induction l with
  | nil => rfl
  | cons p ps ih =>
    show List.Perm (insertDesc p (sortDesc ps)) (p :: ps)
    exact (insertDesc_perm p (sortDesc ps)).trans (ih.cons p)

theorem pairwise_insertDesc (p : Nat × Nat) (l : List (Nat × Nat))
    (h : l.Pairwise fun a b => pairLe b a) :
    (insertDesc p l).Pairwise fun a b => pairLe b a := by
  induction l with
  | nil => simp [insertDesc]
  | cons q qs ih =>
    rw [insertDesc]
    rcases List.pairwise_cons.mp h with ⟨hq, hqs⟩
    split
    · next hle =>
      refine List.pairwise_cons.mpr ⟨?_, h⟩
      intro x hx
      rcases List.mem_cons.mp hx with hx | hx
      · exact hx ▸ hle
      · exact pairLe_trans x q p (hq x hx) hle
    · next hle =>
      refine List.pairwise_cons.mpr ⟨?_, ih hqs⟩
      intro x hx
      rcases List.mem_cons.mp ((insertDesc_perm p qs).mem_iff.mp hx) with hx | hx
      · rcases pairLe_total q p with hqp | hpq
        · exact absurd hqp hle
        · exact hx ▸ hpq
      · exact hq x hx

theorem sortDesc_pairwise (l : List (Nat × Nat)) :
    (sortDesc l).Pairwise fun a b => pairLe b a := by
  induction l with
  | nil => simp [sortDesc]
  | cons p ps ih => exact pairwise_insertDesc p (sortDesc ps) ih

theorem mem_dedupPairs (a : Nat × Nat) (l : List (Nat × Nat)) :
    a ∈ dedupPairs l ↔ a ∈ l := by
  induction l with
  | nil => simp [dedupPairs]
  | cons p ps ih =>
    rw [dedupPairs]
    split
    · next hmem =>
      rw [ih]
      constructor
      · exact fun h => List.mem_cons.mpr (Or.inr h)
      · intro h
        rcases List.mem_cons.mp h with h | h
        · exact h ▸ hmem
        · exact h
    · next hmem => simp [ih]

theorem nodup_dedupPairs (l : List (Nat × Nat)) : (dedupPairs l).Nodup := by
  induction l with
  | nil => simp [dedupPairs]
  | cons p ps ih =>
    rw [dedupPairs]
    split
    · exact ih
    · next hmem =>
      exact List.nodup_cons.mpr ⟨fun h => hmem ((mem_dedupPairs p ps).mp h), ih⟩

theorem pairwise_and {α : Type} {R S : α → α → Prop} :
    ∀ {l : List α}, l.Pairwise R → l.Pairwise S →
      l.Pairwise fun a b => R a b ∧ S a b := by
  intro l
  induction l with
  | nil => intro _ _; simp
  | cons x xs ih =>
    intro hr hs
    rcases List.pairwise_cons.mp hr with ⟨hr1, hr2⟩
    rcases List.pairwise_cons.mp hs with ⟨hs1, hs2⟩
    exact List.pairwise_cons.mpr
      ⟨fun y hy => ⟨hr1 y hy, hs1 y hy⟩, ih hr2 hs2⟩

theorem monthsDesc_pairwise (orders : List Order) :
    (monthsDesc orders).Pairwise fun a b => pairLe b a ∧ a ≠ b := by
  have hs := sortDesc_pairwise (dedupPairs (orders.map monthPair))
  have hn : (sortDesc (dedupPairs (orders.map monthPair))).Nodup :=
    ((sortDesc_perm _).nodup_iff).mpr (nodup_dedupPairs _)
  exact pairwise_and hs hn

theorem mem_monthsDesc (orders : List Order) (p : Nat × Nat) :
    p ∈ monthsDesc orders ↔ ∃ o ∈ orders, monthPair o = p := by
  rw [monthsDesc, (sortDesc_perm _).mem_iff, mem_dedupPairs, List.mem_map]

/-! ### Characterization of the load loop -/

theorem loadLoop_eq (lines : List String) :
    loadLoop lines =
      (((lines.map fun l => stripWs l.data).filter fun s => !s.isEmpty).filterMap
          parseOrderLine,
        (((lines.map fun l => stripWs l.data).filter fun s => !s.isEmpty).filter
            fun s => (parseOrderLine s).isNone).length) := by
  induction lines with
  | nil => rfl
  | cons l ls ih =>
    rw [loadLoop]
    by_cases he : stripWs l.data = []
    · simp only [he, if_pos rfl]
      rw [ih]
      simp [he]
    · rw [if_neg he]
      rcases hp : parseOrderLine (stripWs l.data) with _ | o
      · simp only [ih]
        simp [List.filter_cons, List.filterMap_cons, he, hp,
          List.isEmpty_iff, Option.isNone]
      · simp only [ih]
        simp [List.filter_cons, List.filterMap_cons, he, hp,
          List.isEmpty_iff, Option.isNone]

/-! ### Lemmas about the configuration guards -/

theorem configCheck_none (m : MailerState)
    (h1 : m.smtp_server ≠ "") (h2 : m.smtp_port ≠ 0) (h3 : m.username ≠ "")
    (h4 : m.password ≠ "") (h5 : m.to_addr ≠ []) : configCheck m = none := by
  simp [configCheck, h1, h2, h3, h4, h5]

theorem configCheck_missing (m : MailerState)
    (h : m.smtp_server = "" ∨ m.smtp_port = 0 ∨ m.username = "" ∨
      m.password = "" ∨ m.to_addr = []) :
    ∃ f, configCheck m = some (PlaceError.config f) := by
  rw [configCheck]
  split_ifs <;> first
  | exact ⟨_, rfl⟩
  | tauto

/-! ### The claims -/

/-- C1: with every required field configured, `place_order` marks the
in-progress order's timestamp as now, renders subject and body through
the placeholder engine from that order's counts, and appends exactly one
new line to the history file and exactly one new element to the
in-memory list precisely when the transport send succeeds; a transport
failure propagates as a Send error and leaves both untouched. -/
theorem c1_place_order_steps (now : DateTime) (writeOk : Bool)
    (m : MailerState) (mgr : ManagerState)
    (h1 : m.smtp_server ≠ "") (h2 : m.smtp_port ≠ 0) (h3 : m.username ≠ "")
    (h4 : m.password ≠ "") (h5 : m.to_addr ≠ []) :
    place_order now true true m mgr =
      (Except.ok (),
        some (fill_all (mailerPlaceholders (m.order.now now)) m.subject_template,
          fill_all (mailerPlaceholders (m.order.now now)) m.template),
        { m with order := m.order.now now },
        { file := mgr.file ++ [orderLine (m.order.now now)],
          orders := mgr.orders ++ [m.order.now now] }) ∧
    place_order now false writeOk m mgr =
      (Except.error PlaceError.send,
        some (fill_all (mailerPlaceholders (m.order.now now)) m.subject_template,
          fill_all (mailerPlaceholders (m.order.now now)) m.template),
        { m with order := m.order.now now }, mgr) := by
  have hc := configCheck_none m h1 h2 h3 h4 h5
  constructor <;> simp [place_order, hc, add_order, mailerSubject, mailerBody]

/-- Witness for C1: a fully configured concrete state; on transport
success the history file gains exactly the serialized order line. -/
theorem c1_witness :
    (place_order ⟨2025, 3, 1, 12, 30⟩ true true
        ⟨"smtp.example.org", 587, "u@example.org", "pw", true, ["k@example.org"],
          "Bestellung \x7bDatum\x7d", "Wir bestellen \x7bAnzahl\x7d Essen.",
          ⟨[("1a", 2), ("2b", 1)], ⟨2020, 1, 1, 0, 0⟩⟩⟩
        ⟨["alt"], []⟩).2.2.2.file =
      ["alt", "01.03.2025 12:30;\x7b'1a': 2, '2b': 1\x7d;3"] := by
  rw [(c1_place_order_steps ⟨2025, 3, 1, 12, 30⟩ true _ _ (by decide) (by decide)
    (by decide) (by decide) (by decide)).1]
  decide

/-- C2: with any required send field missing, `place_order` raises the
configuration error, the outcome does not depend on the transport oracle
(no connection is attempted), and the history file is unchanged. -/
theorem c2_place_order_unconfigured (s1 s2 : Bool) (m : MailerState)
    (file : List String)
    (h : m.smtp_server = "" ∨ m.smtp_port = 0 ∨ m.username = "" ∨
      m.password = "" ∨ m.to_addr = []) :
    (∃ f, (place_order_v1 s1 m file).1 = Except.error (PlaceError.config f)) ∧
    (place_order_v1 s1 m file).2.2 = file ∧
    place_order_v1 s1 m file = place_order_v1 s2 m file := by
  rcases configCheck_missing m h with ⟨f, hf⟩
  refine ⟨⟨f, ?_⟩, ?_, ?_⟩ <;> simp [place_order_v1, hf]

/-- Witness for C2: empty SMTP password, the spec's own example. -/
theorem c2_witness :
    (place_order_v1 true
        ⟨"smtp.example.org", 587, "u@example.org", "", true, ["k@example.org"],
          "s", "t", ⟨[("1a", 2)], ⟨2020, 1, 1, 0, 0⟩⟩⟩ ["alt"]).2.2 = ["alt"] ∧
    place_order_v1 true
        ⟨"smtp.example.org", 587, "u@example.org", "", true, ["k@example.org"],
          "s", "t", ⟨[("1a", 2)], ⟨2020, 1, 1, 0, 0⟩⟩⟩ ["alt"] =
      place_order_v1 false
        ⟨"smtp.example.org", 587, "u@example.org", "", true, ["k@example.org"],
          "s", "t", ⟨[("1a", 2)], ⟨2020, 1, 1, 0, 0⟩⟩⟩ ["alt"] := by
  have h := c2_place_order_unconfigured true false
    ⟨"smtp.example.org", 587, "u@example.org", "", true, ["k@example.org"],
      "s", "t", ⟨[("1a", 2)], ⟨2020, 1, 1, 0, 0⟩⟩⟩ ["alt"] (by decide)
  exact ⟨h.2.1, h.2.2⟩

/-- C3: `fill_all` is exactly the in-declaration-order fold of plain
literal text replacement of each token by its computed value; tokens not
present in the template cause no change, and token-like substrings with
no matching placeholder are left verbatim. -/
theorem c3_fill_all_replacement (ps : List Placeholder) (t : String) :
    fill_all ps t = ps.foldl (fun s p => p.fill s) t ∧
    ((∀ p ∈ ps, hasSub t.data p.token.data = false) → fill_all ps t = t) :=
  ⟨fill_all_eq_foldl ps t, fill_all_of_no_tokens ps t⟩

/-- Witness for C3: a template containing only an unknown token-like
substring is returned verbatim by the full mailer placeholder list. -/
theorem c3_witness :
    fill_all (mailerPlaceholders ⟨[("1a", 2)], ⟨2025, 3, 1, 12, 30⟩⟩)
        "Kein Platzhalter \x7bUnbekannt\x7d hier." =
      "Kein Platzhalter \x7bUnbekannt\x7d hier." :=
  (c3_fill_all_replacement
    (mailerPlaceholders ⟨[("1a", 2)], ⟨2025, 3, 1, 12, 30⟩⟩)
    "Kein Platzhalter \x7bUnbekannt\x7d hier.").2 (by decide)

/-- C5: `add_order` appends the serialized line to the file and the order
to the in-memory list exactly on write success (one new line, one new
element); a write failure re-raises and leaves the state, in particular
the in-memory list, exactly as it was. -/
theorem c5_add_order_transactional (st : ManagerState) (o : Order) :
    add_order true st o =
      (Except.ok (), ⟨st.file ++ [orderLine o], st.orders ++ [o]⟩) ∧
    (add_order true st o).2.file.length = st.file.length + 1 ∧
    (add_order true st o).2.orders.length = st.orders.length + 1 ∧
    add_order false st o =
      (Except.error "Could not add order to data file", st) := by
  refine ⟨rfl, ?_, ?_, rfl⟩ <;> simp [add_order]

/-- C10: the dataclass default timestamp is the single value frozen at
class-definition time, shared by all constructions and independent of the
construction moment — not the time of each construction as documented;
`Order.now` does re-assign the timestamp, distinct from construction. -/
theorem c10_default_timestamp (classDefTime ta tb : DateTime)
    (ka kb : List (String × Int)) :
    (orderDefault classDefTime ta ka).datetime =
      (orderDefault classDefTime tb kb).datetime ∧
    (orderDefault classDefTime ta ka).datetime = classDefTime ∧
    (∀ (o : Order) (t : DateTime), (o.now t).datetime = t) ∧
    (orderDefault ⟨2025, 1, 1, 8, 0⟩ ⟨2025, 6, 15, 12, 0⟩ []).datetime ≠
      ⟨2025, 6, 15, 12, 0⟩ :=
  ⟨rfl, rfl, fun _ _ => rfl, by decide⟩

/-- C4: `load_orders` returns exactly the orders of the parseable stripped
non-empty lines, logs one warning per unparseable line and never fails
as a whole, leaves an existing file untouched, and creates a missing
file with only the header line while returning an empty list; in
particular one good and one bad line yield a one-element list and one
warning. -/
theorem c4_load_orders_robust (lines : List String) :
    (load_orders (some lines)).1.1 =
      (((lines.map fun l => stripWs l.data).filter fun s => !s.isEmpty).filterMap
        parseOrderLine) ∧
    (load_orders (some lines)).1.2 =
      ((((lines.map fun l => stripWs l.data).filter fun s => !s.isEmpty).filter
          fun s => (parseOrderLine s).isNone).length) ∧
    (load_orders (some lines)).2 = some lines ∧
    load_orders none = (([], 0), some [headerLine]) ∧
    load_orders (some ["01.03.2025 12:30;\x7b'1a': 2, '2b': 1\x7d;3", "kaputt"]) =
      (([⟨[("1a", 2), ("2b", 1)], ⟨2025, 3, 1, 12, 30⟩⟩], 1),
        some ["01.03.2025 12:30;\x7b'1a': 2, '2b': 1\x7d;3", "kaputt"]) := by
  refine ⟨?_, ?_, rfl, rfl, by decide⟩
  · show (loadLoop lines).1 = _
    rw [loadLoop_eq]
  · show (loadLoop lines).2 = _
    rw [loadLoop_eq]

/-- C6: `month_options` is the sentinel followed by exactly the distinct
(year, month) pairs occurring among the orders, strictly descending,
each formatted month over year; over orders dated 03.2025, 01.2025,
03.2025 it returns the sentinel, then 3/2025, then 1/2025. -/
theorem c6_month_options (orders : List Order) :
    month_options orders = "Alle Monate" :: (monthsDesc orders).map monthFmt ∧
    (∀ p : Nat × Nat, p ∈ monthsDesc orders ↔
      ∃ o ∈ orders, o.datetime.year = p.1 ∧ o.datetime.month = p.2) ∧
    (monthsDesc orders).Pairwise (fun a b => pairLe b a ∧ a ≠ b) ∧
    month_options
        [⟨[], ⟨2025, 3, 5, 10, 0⟩⟩, ⟨[], ⟨2025, 1, 7, 10, 0⟩⟩,
          ⟨[], ⟨2025, 3, 9, 10, 0⟩⟩] =
      ["Alle Monate", "3/2025", "1/2025"] := by
  refine ⟨rfl, ?_, monthsDesc_pairwise orders, by decide⟩
  intro p
  rw [mem_monthsDesc]
  constructor
  · rintro ⟨o, ho, hmp⟩
    exact ⟨o, ho, by rw [← hmp]; rfl, by rw [← hmp]; rfl⟩
  · rintro ⟨o, ho, h1, h2⟩
    refine ⟨o, ho, ?_⟩
    rw [monthPair, h1, h2]

/-- C7: filtering with the sentinel returns all orders unchanged;
filtering with a month-over-year selection returns exactly the orders of
that month as a sublist of the original (relative order preserved); the
store total is the sum of `total_count` over the filtered orders. -/
theorem c7_filtered_orders (orders : List Order) (y m : Nat) :
    filtered_orders orders "Alle Monate" = some orders ∧
    filtered_orders orders (monthFmt (y, m)) =
      some (orders.filter fun o =>
        decide (o.datetime.year = y) && decide (o.datetime.month = m)) ∧
    List.Sublist
      (orders.filter fun o =>
        decide (o.datetime.year = y) && decide (o.datetime.month = m)) orders ∧
    (∀ o : Order,
      (o ∈ orders.filter fun o =>
          decide (o.datetime.year = y) && decide (o.datetime.month = m)) ↔
        o ∈ orders ∧ o.datetime.year = y ∧ o.datetime.month = m) ∧
    manager_total_count orders "Alle Monate" =
      some ((orders.map Order.total_count).sum) ∧
    manager_total_count orders (monthFmt (y, m)) =
      some (((orders.filter fun o =>
        decide (o.datetime.year = y) && decide (o.datetime.month = m)).map
          Order.total_count).sum) := by
  have hsent : filtered_orders orders "Alle Monate" = some orders := by
    rw [filtered_orders, if_neg (by simp)]
  have hsel : filtered_orders orders (monthFmt (y, m)) =
      some (orders.filter fun o =>
        decide (o.datetime.year = y) && decide (o.datetime.month = m)) := by
    rw [filtered_orders, if_pos (monthFmt_ne_sentinel (y, m)), monthFmt_split]
    simp [parseNatStr_natToDigits]
  refine ⟨hsent, hsel, List.filter_sublist _, ?_, ?_, ?_⟩
  · intro o
    rw [List.mem_filter]
    simp
  · rw [manager_total_count, hsent]
    rfl
  · rw [manager_total_count, hsel]
    rfl

/-- C8: the order total is the arithmetic sum of all mapped values, zero
values included; for non-negative counts it is non-negative, and it is
zero when every count is zero. -/
theorem c8_total_count_sum (counts : List (String × Int)) (dt : DateTime)
    (h : ∀ p ∈ counts, 0 ≤ p.2) :
    Order.total_count ⟨counts, dt⟩ = (counts.map Prod.snd).sum ∧
    0 ≤ Order.total_count ⟨counts, dt⟩ ∧
    ((∀ p ∈ counts, p.2 = 0) → Order.total_count ⟨counts, dt⟩ = 0) := by
  refine ⟨rfl, ?_, ?_⟩
  · refine List.sum_nonneg ?_
    intro x hx
    rcases List.mem_map.mp hx with ⟨p, hp, he⟩
    exact he ▸ h p hp
  · intro hz
    refine List.sum_eq_zero ?_
    intro x hx
    rcases List.mem_map.mp hx with ⟨p, hp, he⟩
    exact he ▸ hz p hp

/-- Witness for C8: counts 3, 0, 4 sum to 7 with the zero included. -/
theorem c8_witness :
    Order.total_count ⟨[("1a", 3), ("2b", 0), ("3c", 4)], ⟨2025, 3, 1, 8, 0⟩⟩ =
      (([("1a", 3), ("2b", 0), ("3c", 4)] : List (String × Int)).map
        Prod.snd).sum ∧
    0 ≤ Order.total_count
        ⟨[("1a", 3), ("2b", 0), ("3c", 4)], ⟨2025, 3, 1, 8, 0⟩⟩ ∧
    ((∀ p ∈ ([("1a", 3), ("2b", 0), ("3c", 4)] : List (String × Int)),
        p.2 = 0) →
      Order.total_count ⟨[("1a", 3), ("2b", 0), ("3c", 4)], ⟨2025, 3, 1, 8, 0⟩⟩
        = 0) :=
  c8_total_count_sum [("1a", 3), ("2b", 0), ("3c", 4)] ⟨2025, 3, 1, 8, 0⟩
    (by decide)

/-- C9 counterexample: even when no replacement value contains any token
of the list, one `fill_all` pass is not idempotent — replacing the token
"ab" by "a" in "abb" yields "ab" after one pass and "a" after two,
because the scan resumes after each replacement and can recreate a
token occurrence at a seam. -/
theorem c9_counterexample :
    hasSub (Placeholder.mk "ab" "a" "Beispiel").replacement.data
        (Placeholder.mk "ab" "a" "Beispiel").token.data = false ∧
    fill_all [Placeholder.mk "ab" "a" "Beispiel"]
        (fill_all [Placeholder.mk "ab" "a" "Beispiel"] "abb") ≠
      fill_all [Placeholder.mk "ab" "a" "Beispiel"] "abb" := by
  decide

/-- C9 (amended): if no token of the list occurs in the once-rendered
output, a second `fill_all` pass changes nothing; and rendering a
template containing the Anzahl token with an order total of 7 replaces
every occurrence by 7 and leaves all other text unchanged. -/
theorem c9_idempotent_amended (ps : List Placeholder) (t : String)
    (hout : ∀ p ∈ ps, hasSub (fill_all ps t).data p.token.data = false) :
    fill_all ps (fill_all ps t) = fill_all ps t ∧
    fill_all (mailerPlaceholders ⟨[("1a", 3), ("2b", 4)], ⟨2025, 3, 1, 8, 0⟩⟩)
        "Hallo, wir bestellen \x7bAnzahl\x7d Essen. Danke! (\x7bAnzahl\x7d)" =
      "Hallo, wir bestellen 7 Essen. Danke! (7)" :=
  ⟨fill_all_of_no_tokens ps (fill_all ps t) hout, by decide⟩

/-- Witness for C9 at the concrete mailer placeholder list. -/
theorem c9_witness :
    fill_all (mailerPlaceholders ⟨[("1a", 3), ("2b", 4)], ⟨2025, 3, 1, 8, 0⟩⟩)
        (fill_all (mailerPlaceholders ⟨[("1a", 3), ("2b", 4)], ⟨2025, 3, 1, 8, 0⟩⟩)
          "Summe: \x7bAnzahl\x7d") =
      fill_all (mailerPlaceholders ⟨[("1a", 3), ("2b", 4)], ⟨2025, 3, 1, 8, 0⟩⟩)
        "Summe: \x7bAnzahl\x7d" ∧
    fill_all (mailerPlaceholders ⟨[("1a", 3), ("2b", 4)], ⟨2025, 3, 1, 8, 0⟩⟩)
        "Hallo, wir bestellen \x7bAnzahl\x7d Essen. Danke! (\x7bAnzahl\x7d)" =
      "Hallo, wir bestellen 7 Essen. Danke! (7)" :=
  c9_idempotent_amended
    (mailerPlaceholders ⟨[("1a", 3), ("2b", 4)], ⟨2025, 3, 1, 8, 0⟩⟩)
    "Summe: \x7bAnzahl\x7d" (by decide)

end LunchCrunch
